/-
Verification of the "Refactor" Next.js/TypeScript analysis pipeline.

Shallow embedding of the backend analyzers:
  * dependencyAnalyzer: resolveImportPath, import collection,
    detectCircularDependencies (DFS over the adjacency map);
  * componentAnalyzer: analyzeComponents (two-pass component graph builder);
  * solidAnalyzer: analyzeSRP / analyzeOCP / analyzeISP, the shared AST
    traversals, getComponentSize, calculateScores / calculatePenalty;
  * fileSystem: buildDirectoryTree (children sorting invariant).

JavaScript dynamic AST nodes are modelled as rose trees whose children are
tagged with the property name they occupy (body, consequent, ...); parent
back-references are modelled by threading the list of strict-ancestor node
types through the traversals.  JS numbers standing for line numbers and
counters are modelled as Int/Nat; the score arithmetic (Math.log10,
Math.round, /) is modelled over the reals.
-/
import Mathlib

namespace Refactor

/-! ### String helpers (JS `String.prototype.startsWith` / `includes`) -/

/-- JS `s.startsWith(p)`. -/
def strStartsWith (s p : String) : Bool :=
  p.toList.isPrefixOf s.toList

/-- Contiguous-sublist test on character lists. -/
def charsInfix (sub : List Char) : List Char → Bool
  | [] => sub.isEmpty
  | c :: cs => sub.isPrefixOf (c :: cs) || charsInfix sub cs

/-- JS `s.includes(sub)` (substring containment). -/
def strIncludes (s sub : String) : Bool :=
  charsInfix sub.toList s.toList

/-! ### Cycle detector (`detectCircularDependencies`, dependency analyzer)

The source keeps a `visited` set, a `stack` set and a per-call `path` array.
Every recursive call receives a copy of the path; the stack always holds
exactly the members of the received path (it is extended together with the
path and restored on return), so the embedding keeps only `visited` and the
path, and reads the `stack.has(node)` test as membership in the path.
JS recursion needs no fuel; the embedding passes explicit fuel, and the
top-level entry point supplies more fuel than the graph has nodes. -/

inductive CycleSeverity where
  | warning
  | critical
deriving DecidableEq, Repr

structure CircularDependency where
  path : List String
  severity : CycleSeverity
deriving DecidableEq, Repr

/-- The adjacency map `Map<string, Set<string>>`, in insertion order. -/
abbrev DependencyMap := List (String × List String)

/-- `dependencyMap.get(node) || new Set()`. -/
def mapGetD (m : DependencyMap) (k : String) : List String :=
  match m.find? (fun e => e.1 == k) with
  | some e => e.2
  | none => []

/-- `filePathToModuleName.get(p) || p`. -/
def labelOf (names : List (String × String)) (p : String) : String :=
  match names.find? (fun e => e.1 == p) with
  | some e => e.2
  | none => p

structure DfsState where
  visited : List String
  cycles : List CircularDependency
deriving DecidableEq, Repr

/-- One call of the source's inner `dfs(node, path)`. -/
def dfsAux (adj : DependencyMap) (names : List (String × String)) :
    Nat → String → List String → DfsState → DfsState
  | 0, _, _, s => s
  | fuel + 1, node, path, s =>
    if node ∈ s.visited then s
    else if node ∈ path then
      match path.findIdx? (fun p => p == node) with
      | some cycleStart =>
        let cycle := (path.drop cycleStart).map (labelOf names)
        let severity :=
          if 3 < cycle.length then CycleSeverity.critical else CycleSeverity.warning
        { s with cycles := s.cycles ++ [⟨cycle, severity⟩] }
      | none => s
    else
      let s' := (mapGetD adj node).foldl
        (fun st dep => dfsAux adj names fuel dep (path ++ [node]) st) s
      { s' with visited := node :: s'.visited }

/-- `detectCircularDependencies(dependencyMap, filePathToModuleName)`:
runs the DFS from every key of the map. -/
def detectCircularDependencies (adj : DependencyMap)
    (names : List (String × String)) : List CircularDependency :=
  let fuel := adj.length + (adj.map (fun e => e.2.length)).sum + 1
  (adj.foldl (fun s e => dfsAux adj names fuel e.1 [] s) ⟨[], []⟩).cycles

/-- An edge of the adjacency map. -/
def MapEdge (adj : DependencyMap) (a b : String) : Prop :=
  b ∈ mapGetD adj a

/-- The map has a (nonempty, directed) cycle: some node reaches itself
along edges of the map. -/
def HasCycle (adj : DependencyMap) : Prop :=
  ∃ x l, List.Chain (MapEdge adj) x (l ++ [x])

section CycleLemmas

theorem severity_of_length (L : Nat) :
    (if 3 < L then CycleSeverity.critical else CycleSeverity.warning) =
      CycleSeverity.critical ↔ 3 < L := by
  by_cases h : 3 < L <;> simp [h]

/-- Folding a state-preserving step preserves an invariant. -/
theorem foldl_inv {α σ : Type} (Inv : σ → Prop) (f : σ → α → σ) (l : List α)
    (h : ∀ s a, a ∈ l → Inv s → Inv (f s a)) :
    ∀ s, Inv s → Inv (l.foldl f s) := by
  induction l with
  | nil => intro s hs; simpa using hs
  | cons a t ih =>
    intro s hs
    simp only [List.foldl_cons]
    exact ih (fun s b hb => h s b (List.mem_cons_of_mem _ hb)) _
      (h s a (List.mem_cons_self _ _) hs)

/-- Every cycle the DFS ever records is classified critical exactly when it
has more than 3 members. -/
theorem dfsAux_severity (adj : DependencyMap) (names : List (String × String)) :
    ∀ (fuel : Nat) (node : String) (path : List String) (s : DfsState),
      (∀ c ∈ s.cycles, c.severity = CycleSeverity.critical ↔ 3 < c.path.length) →
      ∀ c ∈ (dfsAux adj names fuel node path s).cycles,
        c.severity = CycleSeverity.critical ↔ 3 < c.path.length := by
  intro fuel
  induction fuel with
  | zero => intro node path s hs; simpa [dfsAux] using hs
  | succ n ih =>
    intro node path s hs c hc
    rw [dfsAux] at hc
    by_cases hv : node ∈ s.visited
    · exact hs c (by simpa [hv] using hc)
    · by_cases hp : node ∈ path
      · simp only [if_neg hv, if_pos hp] at hc
        rcases hfi : path.findIdx? (fun p => p == node) with _ | i
        · rw [hfi] at hc; exact hs c hc
        · rw [hfi] at hc
          simp only at hc
          rcases List.mem_append.1 hc with h | h
          · exact hs c h
          · rcases List.mem_singleton.1 h with rfl
            exact severity_of_length ((path.drop i).map (labelOf names)).length
      · simp only [if_neg hv, if_neg hp] at hc
        have hfold := foldl_inv
          (fun st => ∀ c ∈ DfsState.cycles st,
            c.severity = CycleSeverity.critical ↔ 3 < c.path.length)
          (fun st dep => dfsAux adj names n dep (path ++ [node]) st)
          (mapGetD adj node)
          (fun st dep _ hst => ih dep (path ++ [node]) st hst) s hs
        exact hfold c hc

/-- If the path followed so far is a chain of map edges, recording a cycle
would exhibit a real cycle of the map; so on a map with no cycle the DFS
never records anything. -/
theorem dfsAux_acyclic (adj : DependencyMap) (names : List (String × String))
    (hacyc : ¬ HasCycle adj) :
    ∀ (fuel : Nat) (node : String) (path : List String) (s : DfsState),
      List.Chain' (MapEdge adj) (path ++ [node]) →
      (dfsAux adj names fuel node path s).cycles = s.cycles := by
  intro fuel
  induction fuel with
  | zero => intro node path s _; simp [dfsAux]
  | succ n ih =>
    intro node path s hchain
    rw [dfsAux]
    by_cases hv : node ∈ s.visited
    · simp [hv]
    · by_cases hp : node ∈ path
      · exfalso
        apply hacyc
        rcases List.append_of_mem hp with ⟨u, v, rfl⟩
        refine ⟨node, v, ?_⟩
        have h1 : List.Chain' (MapEdge adj) (node :: (v ++ [node])) := by
          have h2 := hchain
          rw [List.append_assoc, List.cons_append] at h2
          exact List.Chain'.suffix h2 (by simp)
        exact h1
      · simp only [if_neg hv, if_neg hp]
        have hext : ∀ dep ∈ mapGetD adj node,
            List.Chain' (MapEdge adj) ((path ++ [node]) ++ [dep]) := by
          intro dep hdep
          apply List.Chain'.append hchain (by simp)
          intro x hx y hy
          rw [List.getLast?_concat] at hx
          rw [List.head?_cons] at hy
          obtain rfl : node = x := by simpa using hx
          obtain rfl : dep = y := by simpa using hy
          exact hdep
        have hfold := foldl_inv
          (fun st => DfsState.cycles st = s.cycles)
          (fun st dep => dfsAux adj names n dep (path ++ [node]) st)
          (mapGetD adj node)
          (fun st dep hdep hst => by
            show (dfsAux adj names n dep (path ++ [node]) st).cycles = s.cycles
            rw [ih dep (path ++ [node]) st (hext dep hdep)]
            exact hst) s rfl
        exact hfold

/-- On a map with no cycle the detector returns the empty list. -/
theorem detect_acyclic (adj : DependencyMap) (names : List (String × String))
    (h : ¬ HasCycle adj) : detectCircularDependencies adj names = [] := by
  unfold detectCircularDependencies
  exact foldl_inv (fun s : DfsState => s.cycles = [])
    (fun s e => dfsAux adj names
      (adj.length + (adj.map (fun e => e.2.length)).sum + 1) e.1 [] s)
    adj
    (fun s e _ hs => by
      show (dfsAux adj names
        (adj.length + (adj.map (fun e => e.2.length)).sum + 1) e.1 [] s).cycles = []
      rw [dfsAux_acyclic adj names h _ e.1 [] s (by simp)]
      exact hs)
    ⟨[], []⟩ rfl

/-- Every record the detector returns is critical iff its path has more
than 3 members. -/
theorem detect_severity (adj : DependencyMap) (names : List (String × String)) :
    ∀ c ∈ detectCircularDependencies adj names,
      c.severity = CycleSeverity.critical ↔ 3 < c.path.length := by
  unfold detectCircularDependencies
  exact foldl_inv
    (fun s : DfsState => ∀ c ∈ s.cycles,
      c.severity = CycleSeverity.critical ↔ 3 < c.path.length)
    (fun s e => dfsAux adj names
      (adj.length + (adj.map (fun e => e.2.length)).sum + 1) e.1 [] s)
    adj
    (fun s e _ hs =>
      dfsAux_severity adj names _ e.1 [] s hs)
    ⟨[], []⟩ (by intro c hc; cases hc)

end CycleLemmas

/-- C1: on every acyclic adjacency map `detectCircularDependencies` returns
the empty list; on the three-node simple cycle A→B→C→A it returns exactly one
record with path [A, B, C] and severity warning; on the two-node cycle A→B→A
it returns exactly one record with severity warning; and every record it ever
returns is critical exactly when its cycle has more than 3 members (hence
warning at 3 or fewer). -/
theorem C1_cycle_detector :
    (∀ (adj : DependencyMap) (names : List (String × String)),
        ¬ HasCycle adj → detectCircularDependencies adj names = []) ∧
    detectCircularDependencies [("A", ["B"]), ("B", ["C"]), ("C", ["A"])] [] =
      [⟨["A", "B", "C"], CycleSeverity.warning⟩] ∧
    detectCircularDependencies [("A", ["B"]), ("B", ["A"])] [] =
      [⟨["A", "B"], CycleSeverity.warning⟩] ∧
    (∀ (adj : DependencyMap) (names : List (String × String)),
        ∀ c ∈ detectCircularDependencies adj names,
          c.severity = CycleSeverity.critical ↔ 3 < c.path.length) :=
  ⟨detect_acyclic, by decide, by decide, detect_severity⟩

/-! ### AST node model

A JS (typescript-estree) node is modelled as a rose tree: per-node scalar
data in `NodeInfo`, children tagged with the property through which the
source traversals reach them.  `node.body` is sometimes a single node and
sometimes an array; both are a list of `.body`-tagged children here (the
source traverses both the same way).  Optional scalar sub-objects that the
analyzers only ever read one field of (`node.id.name`, `node.key.name`,
`node.callee.name`, ...) are flattened into `NodeInfo` options. -/

structure SrcLoc where
  startLine : Int
  endLine : Int
deriving DecidableEq, Repr

structure NodeInfo where
  type : String
  loc : Option SrcLoc := none
  idName : Option String := none
  idType : Option String := none
  keyName : Option String := none
  keyType : Option String := none
  calleeName : Option String := none
  calleeObjectName : Option String := none
  calleePropertyName : Option String := none
deriving DecidableEq, Repr

/-- The child properties the SOLID-analyzer traversals follow. -/
inductive ChildField where
  | body | consequent | alternate | block | declarations | init | expression
  | test | update | cases | arguments | properties | elements | children
  | params
deriving DecidableEq, Repr

inductive JNode where
  | mk (info : NodeInfo) (kids : List (ChildField × JNode))

def JNode.info : JNode → NodeInfo
  | .mk i _ => i

def JNode.kids : JNode → List (ChildField × JNode)
  | .mk _ k => k

/-- The children reached through property `f` (array-valued or single). -/
def childList (n : JNode) (f : ChildField) : List JNode :=
  (n.kids.filter (fun k => k.1 == f)).map Prod.snd

/-- The node-valued property `f` (first `f`-tagged child, if any). -/
def childNode (n : JNode) (f : ChildField) : Option JNode :=
  (childList n f).head?

/-! #### Generic traversals

Each source helper declares a local `traverse(node)` that tests the node,
then recurses into a fixed set of child properties; every reachable child is
visited exactly once.  `countVisited fs p n anc` counts the visited nodes
(the node itself included) satisfying `p`; `anyVisited` is the boolean
"some visited node satisfies p".  The predicate also receives the list of
types of the node's strict ancestors (nearest first), which models the
`node.parent` chains used by `isInImportExport` / `isInVariableDeclaration`;
`anc` is the ancestry of the root the traversal starts at. -/

mutual

def countVisited (fs : List ChildField) (p : NodeInfo → List String → Bool) :
    JNode → List String → Nat
  | .mk info kids, anc =>
    (if p info anc then 1 else 0) +
      countVisitedKids fs p kids (info.type :: anc)

def countVisitedKids (fs : List ChildField) (p : NodeInfo → List String → Bool) :
    List (ChildField × JNode) → List String → Nat
  | [], _ => 0
  | (f, n) :: rest, anc =>
    (if f ∈ fs then countVisited fs p n anc else 0) +
      countVisitedKids fs p rest anc

end

mutual

def anyVisited (fs : List ChildField) (p : NodeInfo → List String → Bool) :
    JNode → List String → Bool
  | .mk info kids, anc =>
    p info anc || anyVisitedKids fs p kids (info.type :: anc)

def anyVisitedKids (fs : List ChildField) (p : NodeInfo → List String → Bool) :
    List (ChildField × JNode) → List String → Bool
  | [], _ => false
  | (f, n) :: rest, anc =>
    (decide (f ∈ fs) && anyVisited fs p n anc) || anyVisitedKids fs p rest anc

end

/-! ### SOLID analyzer data model -/

inductive Principle where
  | SRP | OCP | LSP | ISP | DIP
deriving DecidableEq, Repr

inductive Severity where
  | info | warning | critical
deriving DecidableEq, Repr

/-- A `SolidIssue` as the analyzer emits it (the optional `line` and
`codeSnippet` fields are never set by the embedded detectors and are
omitted). -/
structure SolidIssue where
  id : String
  principle : Principle
  severity : Severity
  description : String
  filePath : String
  recommendation : String
deriving DecidableEq, Repr

/-- The `FileNode` data the SOLID and dependency analyzers read: path,
extension and the scanner's role flags (`file.metadata?.isPage` etc.;
an absent metadata object reads as all-false). -/
structure SFile where
  path : String
  extension : String
  isPage : Bool := false
  isComponent : Bool := false
  isLayout : Bool := false
deriving DecidableEq, Repr

/-- A component occurrence: the extracted AST node together with the types
of its strict ancestors in the file's tree (nearest first), standing for the
`node.parent` chain above the component. -/
structure CompRef where
  node : JNode
  ancestors : List String

/-! ### `getComponentSize` -/

/-- `getComponentSize(component)`: line span from the location of the
function node itself, the class body, or the variable initializer; 50 when
none is available. -/
def getComponentSize (component : JNode) : Int :=
  let functionCase : Option Int :=
    if component.info.type == "FunctionDeclaration" ||
        component.info.type == "ArrowFunctionExpression" ||
        component.info.type == "FunctionExpression" then
      component.info.loc.map (fun l => l.endLine - l.startLine + 1)
    else none
  let classCase : Option Int :=
    if component.info.type == "ClassDeclaration" then
      ((childNode component .body).bind (fun b => b.info.loc)).map
        (fun l => l.endLine - l.startLine + 1)
    else none
  let variableCase : Option Int :=
    if component.info.type == "VariableDeclarator" then
      ((childNode component .init).bind (fun i => i.info.loc)).map
        (fun l => l.endLine - l.startLine + 1)
    else none
  ((functionCase.orElse fun _ => classCase).orElse fun _ => variableCase).getD 50

/-! ### `hasMixedConcerns` -/

def mixedConcernFields : List ChildField :=
  [.body, .consequent, .alternate, .block, .declarations, .init,
   .expression, .arguments]

def isApiCallNode (i : NodeInfo) : Bool :=
  i.type == "CallExpression" &&
    (i.calleeName == some "fetch" ||
     i.calleeObjectName == some "axios" ||
     i.calleeObjectName == some "http" ||
     i.calleePropertyName == some "get" ||
     i.calleePropertyName == some "post" ||
     i.calleePropertyName == some "put" ||
     i.calleePropertyName == some "delete")

def isStateManagementNode (i : NodeInfo) : Bool :=
  i.type == "CallExpression" &&
    (i.calleeName == some "useState" ||
     i.calleeName == some "useReducer" ||
     i.calleePropertyName == some "setState")

def isComplexLogicNode (i : NodeInfo) : Bool :=
  i.type == "IfStatement" || i.type == "ForStatement" ||
  i.type == "WhileStatement" || i.type == "SwitchStatement"

/-- `hasMixedConcerns(component)`: at least two of api-calls,
state-management and complex-logic signals among the visited nodes. -/
def hasMixedConcerns (component : JNode) : Bool :=
  let hasApiCalls := anyVisited mixedConcernFields (fun i _ => isApiCallNode i) component []
  let hasStateManagement :=
    anyVisited mixedConcernFields (fun i _ => isStateManagementNode i) component []
  let hasComplexLogic :=
    anyVisited mixedConcernFields (fun i _ => isComplexLogicNode i) component []
  (hasApiCalls && hasStateManagement) ||
  (hasApiCalls && hasComplexLogic) ||
  (hasStateManagement && hasComplexLogic)

/-! ### `hasExcessiveConditionals` -/

def conditionalFields : List ChildField :=
  [.body, .consequent, .alternate, .cases, .block, .declarations, .init,
   .test, .update, .expression, .arguments]

def isConditionalNode (i : NodeInfo) : Bool :=
  i.type == "IfStatement" || i.type == "SwitchStatement" ||
  i.type == "ConditionalExpression"

/-- The number of if/switch/ternary nodes the traversal visits. -/
def conditionalCount (component : JNode) : Nat :=
  countVisited conditionalFields (fun i _ => isConditionalNode i) component []

def EXCESSIVE_THRESHOLD : Nat := 5

def hasExcessiveConditionals (component : JNode) : Bool :=
  decide (EXCESSIVE_THRESHOLD < conditionalCount component)

/-! ### `hasHardcodedValues` -/

def hardcodedFields : List ChildField :=
  [.body, .consequent, .alternate, .block, .declarations, .init,
   .expression, .arguments, .properties, .elements]

def isLiteralNode (i : NodeInfo) : Bool :=
  i.type == "StringLiteral" || i.type == "NumericLiteral" ||
  i.type == "ArrayExpression" || i.type == "ObjectExpression"

/-- `isInImportExport(node)`: some strict ancestor is an import/export
statement. -/
def isInImportExport (anc : List String) : Bool :=
  anc.any (fun t => t == "ImportDeclaration" || t == "ExportNamedDeclaration" ||
    t == "ExportDefaultDeclaration")

/-- `isInVariableDeclaration(node)`: some strict ancestor is a variable
declaration. -/
def isInVariableDeclaration (anc : List String) : Bool :=
  anc.any (fun t => t == "VariableDeclaration")

/-- The number of literal nodes the traversal visits that sit in neither an
import/export statement nor a variable declaration; `anc` is the ancestry
of the component node itself. -/
def hardcodedValueCount (component : JNode) (anc : List String) : Nat :=
  countVisited hardcodedFields
    (fun i a => isLiteralNode i && !isInImportExport a && !isInVariableDeclaration a)
    component anc

def HARDCODED_THRESHOLD : Nat := 3

def hasHardcodedValues (component : JNode) (anc : List String) : Bool :=
  decide (HARDCODED_THRESHOLD < hardcodedValueCount component anc)

/-! ### `hasUnrelatedProps` and the SRP/OCP/ISP detectors -/

/-- The members of an interface declaration: `typeDefinition.body.body`. -/
def interfaceMembers (td : JNode) : List JNode :=
  match childNode td .body with
  | some b => childList b .body
  | none => []

def uiPropName (nm : String) : Bool :=
  strIncludes nm "style" || strIncludes nm "class" || strIncludes nm "color" ||
  strIncludes nm "size" || strIncludes nm "width" || strIncludes nm "height"

def dataPropName (nm : String) : Bool :=
  strIncludes nm "data" || strIncludes nm "value" || strIncludes nm "item" ||
  strIncludes nm "list"

def eventPropName (nm : String) : Bool :=
  strIncludes nm "on" || strIncludes nm "handler" || strIncludes nm "callback"

/-- `prop.key && typeof prop.key.name === 'string' && pred(prop.key.name)`. -/
def propKeyMatches (pred : String → Bool) (prop : JNode) : Bool :=
  match prop.info.keyName with
  | some nm => pred nm
  | none => false

/-- `hasUnrelatedProps(typeDefinition)`: more than 5 members, splitting into
at least two of the ui/data/event naming buckets with at least 2 members
each. -/
def hasUnrelatedProps (td : JNode) : Bool :=
  match childNode td .body with
  | none => false
  | some b =>
    let properties := childList b .body
    if properties.length ≤ 5 then false
    else
      let uiProps := properties.filter (propKeyMatches uiPropName)
      let dataProps := properties.filter (propKeyMatches dataPropName)
      let eventProps := properties.filter (propKeyMatches eventPropName)
      (2 ≤ uiProps.length && 2 ≤ dataProps.length) ||
      (2 ≤ uiProps.length && 2 ≤ eventProps.length) ||
      (2 ≤ dataProps.length && 2 ≤ eventProps.length)

/-! #### Issue records -/

def srpLargeIssue (file : SFile) (componentName : String) (componentSize : Int) :
    SolidIssue :=
  { id := "srp-large-component-" ++ (file.path ++ ("-" ++ componentName))
  , principle := Principle.SRP
  , severity := Severity.critical
  , description := "Component " ++ (componentName ++ (" is too large (" ++
      (toString componentSize ++ " lines) and likely has multiple responsibilities")))
  , filePath := file.path
  , recommendation := "Split this component into smaller, focused components each with a single responsibility" }

def srpMediumIssue (file : SFile) (componentName : String) (componentSize : Int) :
    SolidIssue :=
  { id := "srp-medium-component-" ++ (file.path ++ ("-" ++ componentName))
  , principle := Principle.SRP
  , severity := Severity.warning
  , description := "Component " ++ (componentName ++ (" is moderately large (" ++
      (toString componentSize ++ " lines) and may have multiple responsibilities")))
  , filePath := file.path
  , recommendation := "Consider splitting this component into smaller, focused components" }

def srpMixedIssue (file : SFile) (componentName : String) : SolidIssue :=
  { id := "srp-mixed-concerns-" ++ (file.path ++ ("-" ++ componentName))
  , principle := Principle.SRP
  , severity := Severity.warning
  , description := "Component " ++ (componentName ++
      " mixes multiple concerns (e.g., data fetching, state management, and UI rendering)")
  , filePath := file.path
  , recommendation := "Separate concerns by moving data fetching to custom hooks, business logic to separate utilities, and keep components focused on UI rendering" }

def ocpConditionalsIssue (file : SFile) (componentName : String) : SolidIssue :=
  { id := "ocp-excessive-conditionals-" ++ (file.path ++ ("-" ++ componentName))
  , principle := Principle.OCP
  , severity := Severity.warning
  , description := "Component " ++ (componentName ++
      " contains excessive conditionals (switch statements or long if-else chains)")
  , filePath := file.path
  , recommendation := "Replace conditionals with polymorphism or strategy pattern. Consider using a component map or render props pattern." }

def ocpHardcodedIssue (file : SFile) (componentName : String) : SolidIssue :=
  { id := "ocp-hardcoded-values-" ++ (file.path ++ ("-" ++ componentName))
  , principle := Principle.OCP
  , severity := Severity.info
  , description := "Component " ++ (componentName ++
      " contains hardcoded values that should be configurable")
  , filePath := file.path
  , recommendation := "Extract hardcoded values to props or configuration to make the component more extensible" }

def ispLargeIssue (file : SFile) (interfaceName : String) (propertyCount : Nat) :
    SolidIssue :=
  { id := "isp-large-interface-" ++ (file.path ++ ("-" ++ interfaceName))
  , principle := Principle.ISP
  , severity := Severity.warning
  , description := "Interface " ++ (interfaceName ++ (" has " ++
      (toString propertyCount ++ " properties which may be too many for a single interface")))
  , filePath := file.path
  , recommendation := "Split large interfaces into smaller, more focused interfaces based on client needs" }

def ispUnrelatedIssue (file : SFile) (interfaceName : String) : SolidIssue :=
  { id := "isp-unrelated-props-" ++ (file.path ++ ("-" ++ interfaceName))
  , principle := Principle.ISP
  , severity := Severity.info
  , description := "Interface " ++ (interfaceName ++
      " contains properties that seem unrelated and may not be used together")
  , filePath := file.path
  , recommendation := "Group related properties into separate interfaces and compose them where needed" }

/-! #### The detectors (per-unit contribution, then the source's loop) -/

/-- The name the analyzers report: `component.id?.name || 'UnnamedComponent'`. -/
def componentNameOf (c : JNode) : String :=
  c.info.idName.getD "UnnamedComponent"

/-- What one loop iteration of `analyzeSRP` appends for one component. -/
def srpIssuesFor (file : SFile) (cr : CompRef) : List SolidIssue :=
  let componentName := componentNameOf cr.node
  let componentSize := getComponentSize cr.node
  (if 200 < componentSize then [srpLargeIssue file componentName componentSize]
   else if 100 < componentSize then [srpMediumIssue file componentName componentSize]
   else []) ++
  (if hasMixedConcerns cr.node then [srpMixedIssue file componentName] else [])

/-- `analyzeSRP(file, components)`. -/
def analyzeSRP (file : SFile) (components : List CompRef) : List SolidIssue :=
  components.foldl (fun issues c => issues ++ srpIssuesFor file c) []

/-- What one loop iteration of `analyzeOCP` appends for one component. -/
def ocpIssuesFor (file : SFile) (cr : CompRef) : List SolidIssue :=
  let componentName := componentNameOf cr.node
  (if hasExcessiveConditionals cr.node then [ocpConditionalsIssue file componentName]
   else []) ++
  (if hasHardcodedValues cr.node cr.ancestors then [ocpHardcodedIssue file componentName]
   else [])

/-- `analyzeOCP(file, components, typeDefinitions)` (the type definitions are
not read by the source's loop). -/
def analyzeOCP (file : SFile) (components : List CompRef)
    (_typeDefinitions : List JNode) : List SolidIssue :=
  components.foldl (fun issues c => issues ++ ocpIssuesFor file c) []

/-- What one loop iteration of `analyzeISP` appends for one type definition. -/
def ispIssuesFor (file : SFile) (td : JNode) : List SolidIssue :=
  if td.info.type == "TSInterfaceDeclaration" then
    let interfaceName := td.info.idName.getD ""
    let propertyCount := (interfaceMembers td).length
    (if 10 < propertyCount then [ispLargeIssue file interfaceName propertyCount]
     else []) ++
    (if hasUnrelatedProps td then [ispUnrelatedIssue file interfaceName] else [])
  else []

/-- `analyzeISP(file, typeDefinitions)`. -/
def analyzeISP (file : SFile) (typeDefinitions : List JNode) : List SolidIssue :=
  typeDefinitions.foldl (fun issues td => issues ++ ispIssuesFor file td) []

/-- Membership in an append-accumulating fold. -/
theorem mem_foldl_append {α β : Type} (g : α → List β) (l : List α) :
    ∀ (acc : List β) (x : β),
      (x ∈ l.foldl (fun issues c => issues ++ g c) acc ↔
        x ∈ acc ∨ ∃ c ∈ l, x ∈ g c) := by
  induction l with
  | nil => intro acc x; simp
  | cons a t ih =>
    intro acc x
    simp only [List.foldl_cons]
    rw [ih]
    constructor
    · rintro (h | h)
      · rcases List.mem_append.1 h with h | h
        · exact Or.inl h
        · exact Or.inr ⟨a, List.mem_cons_self _ _, h⟩
      · rcases h with ⟨c, hc, hx⟩
        exact Or.inr ⟨c, List.mem_cons_of_mem _ hc, hx⟩
    · rintro (h | ⟨c, hc, hx⟩)
      · exact Or.inl (List.mem_append.2 (Or.inl h))
      · rcases List.mem_cons.1 hc with rfl | hc
        · exact Or.inl (List.mem_append.2 (Or.inr hx))
        · exact Or.inr ⟨c, hc, hx⟩

/-- Two string appends with literal heads differing at index `k` are
distinct. -/
theorem string_append_ne (a b r₁ r₂ : String) (k : Nat)
    (ha : k < a.data.length) (hb : k < b.data.length)
    (hne : a.data[k]? ≠ b.data[k]?) : a ++ r₁ ≠ b ++ r₂ := by
  intro he
  apply hne
  have h2 := congrArg String.data he
  rw [String.data_append, String.data_append] at h2
  calc a.data[k]? = (a.data ++ r₁.data)[k]? := (List.getElem?_append_left ha).symm
    _ = (b.data ++ r₂.data)[k]? := by rw [h2]
    _ = b.data[k]? := List.getElem?_append_left hb

theorem srpMediumIssue_ne_srpMixedIssue (f g : SFile) (m n : String) (s : Int) :
    srpMediumIssue f m s ≠ srpMixedIssue g n := by
  intro h
  have hid := congrArg SolidIssue.id h
  simp only [srpMediumIssue, srpMixedIssue] at hid
  exact string_append_ne "srp-medium-component-" "srp-mixed-concerns-" _ _ 5
    (by decide) (by decide) (by decide) hid

/-! #### Example inputs -/

def exampleFile : SFile :=
  { path := "src/components/Example.tsx", extension := ".tsx" }

/-- A functional component spanning lines 1..201 (end − start = 200,
201 counted lines). -/
def srpBoundaryComponent : JNode :=
  .mk { type := "FunctionDeclaration", idName := some "Boundary",
        loc := some ⟨1, 201⟩ } []

/-- A 250-line functional component declaration (lines 1..250). -/
def srpWideComponent : JNode :=
  .mk { type := "FunctionDeclaration", idName := some "Wide",
        loc := some ⟨1, 250⟩ } []

/-- A component node carrying no location information anywhere. -/
def noLocComponent : JNode :=
  .mk { type := "FunctionDeclaration", idName := some "Mystery" } []

/-! ### C3: SRP size thresholds -/

/-- C3 counterexample: a functional component declared on lines 1..201 has
end line minus start line equal to 200, which does not exceed 200 — so under
the claim no critical issue should be emitted — yet the SRP detector emits
exactly one critical issue for it (the source counts end − start + 1 = 201
lines). -/
theorem C3_counterexample :
    srpBoundaryComponent.info.loc = some ⟨1, 201⟩ ∧
    ¬ ((201 : Int) - 1 > 200) ∧
    (analyzeSRP exampleFile [⟨srpBoundaryComponent, []⟩]).map SolidIssue.severity =
      [Severity.critical] :=
  ⟨rfl, by decide, by decide⟩

/-- C3 (amended): the SRP detector emits the critical large-component issue
for a unit exactly when its estimated size end − start + 1 (getComponentSize)
exceeds 200, and the warning medium-component issue exactly when that size
exceeds 100 but not 200; `analyzeSRP` emits exactly the per-unit
contributions; and a 250-line functional component declaration yields
exactly one SRP issue, of severity critical. -/
theorem C3_srp_size_issues :
    (∀ (file : SFile) (cr : CompRef),
      (srpLargeIssue file (componentNameOf cr.node) (getComponentSize cr.node) ∈
          srpIssuesFor file cr ↔ 200 < getComponentSize cr.node) ∧
      (srpMediumIssue file (componentNameOf cr.node) (getComponentSize cr.node) ∈
          srpIssuesFor file cr ↔
        (100 < getComponentSize cr.node ∧ getComponentSize cr.node ≤ 200))) ∧
    (∀ (file : SFile) (components : List CompRef) (x : SolidIssue),
      x ∈ analyzeSRP file components ↔ ∃ cr ∈ components, x ∈ srpIssuesFor file cr) ∧
    analyzeSRP exampleFile [⟨srpWideComponent, []⟩] =
      [srpLargeIssue exampleFile "Wide" 250] := by
  refine ⟨?_, ?_, by decide⟩
  · intro file cr
    constructor
    · by_cases h200 : 200 < getComponentSize cr.node
      · simp [srpIssuesFor, h200, srpLargeIssue, srpMixedIssue]
      · by_cases h100 : 100 < getComponentSize cr.node
        · simp [srpIssuesFor, h200, h100, srpLargeIssue, srpMediumIssue,
            srpMixedIssue]
        · simp [srpIssuesFor, h200, h100, srpLargeIssue, srpMixedIssue]
    · by_cases h200 : 200 < getComponentSize cr.node
      · simp only [srpIssuesFor, if_pos h200, List.mem_append,
          List.mem_singleton]
        constructor
        · rintro (h | h)
          · exact absurd (congrArg SolidIssue.severity h)
              (by simp [srpMediumIssue, srpLargeIssue])
          · by_cases hmix : hasMixedConcerns cr.node
            · exact absurd (by simpa [if_pos hmix] using h)
                (srpMediumIssue_ne_srpMixedIssue file file (componentNameOf cr.node)
                  (componentNameOf cr.node) (getComponentSize cr.node))
            · exact absurd h (by simp [if_neg hmix])
        · rintro ⟨_, habs⟩
          exact absurd h200 (not_lt.2 habs)
      · by_cases h100 : 100 < getComponentSize cr.node
        · have hle : getComponentSize cr.node ≤ 200 := not_lt.1 h200
          simp [srpIssuesFor, if_neg h200, if_pos h100, h100, hle]
        · simp only [srpIssuesFor, if_neg h200, if_neg h100, List.nil_append]
          constructor
          · intro h
            exfalso
            by_cases hmix : hasMixedConcerns cr.node
            · exact srpMediumIssue_ne_srpMixedIssue file file (componentNameOf cr.node)
                (componentNameOf cr.node) (getComponentSize cr.node)
                (by simpa [if_pos hmix] using h)
            · exact absurd h (by simp [if_neg hmix])
          · rintro ⟨habs, _⟩
            exact absurd habs h100
  · intro file components x
    simpa using mem_foldl_append (srpIssuesFor file) components [] x

/-- C10: a component node with no usable location information (no `loc` on
the node itself, on its class body, or on its variable initializer) gets the
default size 50 from `getComponentSize`, so the SRP size checks emit nothing
for it: its SRP contribution is exactly the mixed-concerns issue when that
is flagged, and empty otherwise. -/
theorem C10_missing_loc_default_size :
    ∀ (file : SFile) (cr : CompRef),
      cr.node.info.loc = none →
      (childNode cr.node .body).bind (fun b => b.info.loc) = none →
      (childNode cr.node .init).bind (fun i => i.info.loc) = none →
      getComponentSize cr.node = 50 ∧
      srpIssuesFor file cr =
        (if hasMixedConcerns cr.node then
          [srpMixedIssue file (componentNameOf cr.node)]
         else []) := by
  intro file cr h1 h2 h3
  have hsize : getComponentSize cr.node = 50 := by
    simp [getComponentSize, h1, h2, h3, ite_self]
  refine ⟨hsize, ?_⟩
  simp [srpIssuesFor, hsize]

/-- Witness for C10 at a concrete location-free function component. -/
theorem C10_missing_loc_witness :
    getComponentSize noLocComponent = 50 ∧
    srpIssuesFor exampleFile ⟨noLocComponent, []⟩ =
      (if hasMixedConcerns noLocComponent then
        [srpMixedIssue exampleFile (componentNameOf noLocComponent)]
       else []) :=
  C10_missing_loc_default_size exampleFile ⟨noLocComponent, []⟩ rfl rfl rfl

/-! ### C7: ISP detector -/

/-- The claim's bucket-split condition, stated on its own: the members fall
into at least 2 of the three naming buckets with at least 2 members each
(with no constraint on the total member count). -/
def bucketSplitCondition (td : JNode) : Bool :=
  let properties := interfaceMembers td
  let ui := (properties.filter (propKeyMatches uiPropName)).length
  let dat := (properties.filter (propKeyMatches dataPropName)).length
  let ev := (properties.filter (propKeyMatches eventPropName)).length
  (2 ≤ ui && 2 ≤ dat) || (2 ≤ ui && 2 ≤ ev) || (2 ≤ dat && 2 ≤ ev)

/-- A property-signature member of an interface body. -/
def propMember (nm : String) : JNode :=
  .mk { type := "TSPropertySignature", keyName := some nm } []

/-- An interface declaration with the given member names. -/
def mkInterface (nm : String) (memberNames : List String) : JNode :=
  .mk { type := "TSInterfaceDeclaration", idName := some nm }
    [(.body, .mk { type := "TSInterfaceBody" }
        (memberNames.map (fun m => (ChildField.body, propMember m))))]

/-- Four members, two in the presentation bucket and two in the data
bucket. -/
def fourBucketInterface : JNode :=
  mkInterface "Mixed" ["styleA", "sizeB", "dataC", "valueD"]

/-- Six members, two presentation and two data ones. -/
def sixBucketInterface : JNode :=
  mkInterface "Mixed6" ["styleA", "sizeB", "dataC", "valueD", "extraE", "flagF"]

/-- Eleven members. -/
def elevenMemberInterface : JNode :=
  mkInterface "Big"
    ["p1", "p2", "p3", "p4", "p5", "p6", "p7", "p8", "p9", "p10", "p11"]

/-- C7 counterexample: an interface with 4 members, 2 in the presentation
bucket and 2 in the data bucket, satisfies the claim's bucket-split
condition, so under the claim it should be flagged regardless of its total
member count — yet the detector emits no issue at all for it (the source
returns false for every interface with at most 5 members). -/
theorem C7_counterexample :
    bucketSplitCondition fourBucketInterface = true ∧
    (interfaceMembers fourBucketInterface).length = 4 ∧
    hasUnrelatedProps fourBucketInterface = false ∧
    analyzeISP exampleFile [fourBucketInterface] = [] := by decide

/-- C7 (amended): the ISP detector flags every interface declaration with
more than 10 members with a warning issue, and separately flags with an info
issue every interface that has more than 5 members and whose members split
into at least 2 of the three naming buckets with at least 2 members each —
the unrelated-props flag holds exactly when the interface has a body, more
than 5 members, and the bucket-split condition. -/
theorem C7_isp_detector :
    ∀ (file : SFile) (typeDefinitions : List JNode) (td : JNode),
      td ∈ typeDefinitions →
      td.info.type = "TSInterfaceDeclaration" →
      (10 < (interfaceMembers td).length →
        ispLargeIssue file (td.info.idName.getD "") (interfaceMembers td).length ∈
          analyzeISP file typeDefinitions) ∧
      (hasUnrelatedProps td = true →
        ispUnrelatedIssue file (td.info.idName.getD "") ∈
          analyzeISP file typeDefinitions) ∧
      (hasUnrelatedProps td = true ↔
        ((childNode td .body).isSome ∧ 5 < (interfaceMembers td).length ∧
          bucketSplitCondition td = true)) := by
  intro file typeDefinitions td htd htype
  have hmem : ∀ x : SolidIssue, x ∈ ispIssuesFor file td →
      x ∈ analyzeISP file typeDefinitions := by
    intro x hx
    exact (mem_foldl_append (ispIssuesFor file) typeDefinitions [] x).2
      (Or.inr ⟨td, htd, hx⟩)
  have htypeb : (td.info.type == "TSInterfaceDeclaration") = true := by
    simp [htype]
  refine ⟨?_, ?_, ?_⟩
  · intro hcount
    apply hmem
    simp [ispIssuesFor, htypeb, if_pos hcount]
  · intro hunrel
    apply hmem
    simp [ispIssuesFor, htypeb, hunrel]
  · unfold hasUnrelatedProps
    rcases hb : childNode td .body with _ | b
    · simp [hb]
    · have hmembers : interfaceMembers td = childList b .body := by
        simp [interfaceMembers, hb]
      by_cases hlen : (childList b .body).length ≤ 5
      · simp [hb, hlen, hmembers, Nat.not_lt.2 hlen]
      · have h5 : 5 < (childList b .body).length := Nat.not_le.1 hlen
        simp only [hb, if_neg hlen]
        simp [bucketSplitCondition, hmembers, h5]

/-- Witness for C7: the large-interface warning at a concrete 11-member
interface, and the unrelated-props info issue at a concrete 6-member
interface that splits into two buckets. -/
theorem C7_isp_witness :
    ispLargeIssue exampleFile "Big" 11 ∈
      analyzeISP exampleFile [elevenMemberInterface] ∧
    ispUnrelatedIssue exampleFile "Mixed6" ∈
      analyzeISP exampleFile [sixBucketInterface] :=
  ⟨(C7_isp_detector exampleFile [elevenMemberInterface] elevenMemberInterface
      (List.mem_singleton_self _) rfl).1 (by decide),
   (C7_isp_detector exampleFile [sixBucketInterface] sixBucketInterface
      (List.mem_singleton_self _) rfl).2.1 (by decide)⟩

/-! ### C8: OCP detector -/

/-- A function component with 6 if statements and 4 string literals in its
body. -/
def ocpExampleComponent : JNode :=
  .mk { type := "FunctionDeclaration", idName := some "Chooser" }
    ((List.replicate 6 (ChildField.body, JNode.mk { type := "IfStatement" } [])) ++
     (List.replicate 4 (ChildField.body, JNode.mk { type := "StringLiteral" } [])))

/-- C8: the OCP detector flags with a warning every composable unit whose
body traversal counts more than 5 conditional constructs (if/switch/ternary),
and flags with an info issue every unit whose traversal counts more than 3
literal values outside import/export statements and variable declarations;
the two boolean checks hold exactly at those thresholds. -/
theorem C8_ocp_detector :
    ∀ (file : SFile) (components : List CompRef) (typeDefinitions : List JNode)
      (cr : CompRef), cr ∈ components →
      (hasExcessiveConditionals cr.node = true ↔ 5 < conditionalCount cr.node) ∧
      (hasExcessiveConditionals cr.node = true →
        ocpConditionalsIssue file (componentNameOf cr.node) ∈
          analyzeOCP file components typeDefinitions) ∧
      (hasHardcodedValues cr.node cr.ancestors = true ↔
        3 < hardcodedValueCount cr.node cr.ancestors) ∧
      (hasHardcodedValues cr.node cr.ancestors = true →
        ocpHardcodedIssue file (componentNameOf cr.node) ∈
          analyzeOCP file components typeDefinitions) := by
  intro file components typeDefinitions cr hcr
  have hmem : ∀ x : SolidIssue, x ∈ ocpIssuesFor file cr →
      x ∈ analyzeOCP file components typeDefinitions := by
    intro x hx
    exact (mem_foldl_append (ocpIssuesFor file) components [] x).2
      (Or.inr ⟨cr, hcr, hx⟩)
  refine ⟨?_, ?_, ?_, ?_⟩
  · simp [hasExcessiveConditionals, EXCESSIVE_THRESHOLD]
  · intro hcond
    apply hmem
    simp [ocpIssuesFor, hcond]
  · simp [hasHardcodedValues, HARDCODED_THRESHOLD]
  · intro hhard
    apply hmem
    simp [ocpIssuesFor, hhard]

/-- Witness for C8 at a concrete component with 6 conditionals and 4
hardcoded string literals. -/
theorem C8_ocp_witness :
    ocpConditionalsIssue exampleFile "Chooser" ∈
      analyzeOCP exampleFile [⟨ocpExampleComponent, []⟩] [] ∧
    ocpHardcodedIssue exampleFile "Chooser" ∈
      analyzeOCP exampleFile [⟨ocpExampleComponent, []⟩] [] := by
  have h := C8_ocp_detector exampleFile [⟨ocpExampleComponent, []⟩] []
    ⟨ocpExampleComponent, []⟩ (List.mem_singleton_self _)
  exact ⟨h.2.1 (by decide), h.2.2.2 (by decide)⟩

/-! ### Score calculator (`calculateScores` / `calculatePenalty`)

JS floating-point arithmetic is modelled over the reals: `Math.log10` as
`Real.logb 10`, `Math.round` as Mathlib's `round` (both round halves up),
`Math.max` as `max`, `/` as real division.  `Math.log10(0)` is `-Infinity`
in JS while `Real.logb 10 0 = 0` here; both disappear under the outer
`Math.max(1, _)`. -/

/-- The scores record; `overall` comes out of `Math.round`, so it is an
integer. -/
structure SolidScore where
  srp : ℝ
  ocp : ℝ
  lsp : ℝ
  isp : ℝ
  dip : ℝ
  overall : ℤ

/-- The per-principle per-severity issue count accumulated by the
`counts[...]++` loop. -/
def countIssues (issues : List SolidIssue) (p : Principle) (s : Severity) : Nat :=
  (issues.filter (fun i => i.principle == p && i.severity == s)).length

def penaltyInfo : ℝ := 1
def penaltyWarning : ℝ := 3
def penaltyCritical : ℝ := 10
def baseScore : ℝ := 100

/-- `calculatePenalty(counts, totalFiles, penalties)`. -/
noncomputable def calculatePenalty (cinfo cwarning ccritical : Nat)
    (totalFiles : Nat) : ℝ :=
  let normalizationFactor : ℝ := max 1 (Real.logb 10 totalFiles)
  ((cinfo : ℝ) * penaltyInfo + (cwarning : ℝ) * penaltyWarning +
    (ccritical : ℝ) * penaltyCritical) / normalizationFactor

/-- One principle's score: `Math.max(0, baseScore - calculatePenalty(...))`. -/
noncomputable def principleScore (issues : List SolidIssue) (p : Principle)
    (totalFiles : Nat) : ℝ :=
  max 0 (baseScore - calculatePenalty (countIssues issues p .info)
    (countIssues issues p .warning) (countIssues issues p .critical) totalFiles)

/-- `calculateScores(issues, totalFiles)`. -/
noncomputable def calculateScores (issues : List SolidIssue) (totalFiles : Nat) :
    SolidScore :=
  let srp := principleScore issues .SRP totalFiles
  let ocp := principleScore issues .OCP totalFiles
  let lsp := principleScore issues .LSP totalFiles
  let isp := principleScore issues .ISP totalFiles
  let dip := principleScore issues .DIP totalFiles
  { srp := srp, ocp := ocp, lsp := lsp, isp := isp, dip := dip
  , overall := round ((srp + ocp + lsp + isp + dip) / 5) }

theorem calculatePenalty_nonneg (ci cw cc n : Nat) :
    0 ≤ calculatePenalty ci cw cc n := by
  unfold calculatePenalty penaltyInfo penaltyWarning penaltyCritical
  apply div_nonneg
  · positivity
  · exact le_trans zero_le_one (le_max_left _ _)

theorem principleScore_range (issues : List SolidIssue) (p : Principle) (n : Nat) :
    0 ≤ principleScore issues p n ∧ principleScore issues p n ≤ 100 := by
  unfold principleScore
  constructor
  · exact le_max_left _ _
  · apply max_le (by norm_num)
    have h := calculatePenalty_nonneg (countIssues issues p .info)
      (countIssues issues p .warning) (countIssues issues p .critical) n
    unfold baseScore
    linarith

/-- C2: each of the five principle scores is
`max(0, 100 − (info·1 + warning·3 + critical·10) / max(1, log10 files))`,
the overall score is the rounded unweighted mean of the five, every returned
score lies in [0, 100], and an empty issue list yields five scores of 100
and an overall of 100 (for every file count). -/
theorem C2_score_calculator :
    ∀ (issues : List SolidIssue) (n : Nat),
      ((calculateScores issues n).srp = principleScore issues .SRP n ∧
       (calculateScores issues n).ocp = principleScore issues .OCP n ∧
       (calculateScores issues n).lsp = principleScore issues .LSP n ∧
       (calculateScores issues n).isp = principleScore issues .ISP n ∧
       (calculateScores issues n).dip = principleScore issues .DIP n) ∧
      (∀ p : Principle, principleScore issues p n =
        max 0 (100 - ((countIssues issues p .info : ℝ) * 1 +
          (countIssues issues p .warning : ℝ) * 3 +
          (countIssues issues p .critical : ℝ) * 10) /
            max 1 (Real.logb 10 (n : ℝ)))) ∧
      (calculateScores issues n).overall =
        round (((calculateScores issues n).srp + (calculateScores issues n).ocp +
          (calculateScores issues n).lsp + (calculateScores issues n).isp +
          (calculateScores issues n).dip) / 5) ∧
      (∀ p : Principle, 0 ≤ principleScore issues p n ∧
        principleScore issues p n ≤ 100) ∧
      (0 ≤ (calculateScores issues n).overall ∧
        (calculateScores issues n).overall ≤ 100) ∧
      (issues = [] → calculateScores issues n = ⟨100, 100, 100, 100, 100, 100⟩) := by
  intro issues n
  refine ⟨⟨rfl, rfl, rfl, rfl, rfl⟩, ?_, rfl, fun p => principleScore_range issues p n, ?_, ?_⟩
  · intro p
    simp [principleScore, calculatePenalty, penaltyInfo, penaltyWarning,
      penaltyCritical, baseScore]
  · have hr : ∀ p, 0 ≤ principleScore issues p n ∧ principleScore issues p n ≤ 100 :=
      fun p => principleScore_range issues p n
    set m : ℝ := ((calculateScores issues n).srp + (calculateScores issues n).ocp +
      (calculateScores issues n).lsp + (calculateScores issues n).isp +
      (calculateScores issues n).dip) / 5 with hm
    have hov : (calculateScores issues n).overall = round m := rfl
    have hm0 : 0 ≤ m := by
      rw [hm]
      have h1 := hr .SRP
      have h2 := hr .OCP
      have h3 := hr .LSP
      have h4 := hr .ISP
      have h5 := hr .DIP
      show 0 ≤ (principleScore issues .SRP n + principleScore issues .OCP n +
        principleScore issues .LSP n + principleScore issues .ISP n +
        principleScore issues .DIP n) / 5
      apply div_nonneg (by linarith [h1.1, h2.1, h3.1, h4.1, h5.1]) (by norm_num)
    have hm100 : m ≤ 100 := by
      rw [hm]
      have h1 := hr .SRP
      have h2 := hr .OCP
      have h3 := hr .LSP
      have h4 := hr .ISP
      have h5 := hr .DIP
      show (principleScore issues .SRP n + principleScore issues .OCP n +
        principleScore issues .LSP n + principleScore issues .ISP n +
        principleScore issues .DIP n) / 5 ≤ 100
      rw [div_le_iff₀ (by norm_num)]
      linarith [h1.2, h2.2, h3.2, h4.2, h5.2]
    rw [hov, round_eq]
    constructor
    · exact Int.le_floor.2 (by push_cast; linarith)
    · have hfl : ⌊m + 1 / 2⌋ ≤ ⌊(100 : ℝ) + 1 / 2⌋ :=
        Int.floor_le_floor (by linarith)
      have h100 : ⌊(100 : ℝ) + 1 / 2⌋ = 100 :=
        Int.floor_eq_iff.2 ⟨by norm_num, by norm_num⟩
      omega
  · intro he
    subst he
    have hp : ∀ p : Principle, principleScore [] p n = 100 := by
      intro p
      simp [principleScore, calculatePenalty, countIssues, baseScore]
    show SolidScore.mk _ _ _ _ _ _ = _
    rw [hp .SRP, hp .OCP, hp .LSP, hp .ISP, hp .DIP]
    have hround : round (((100 : ℝ) + 100 + 100 + 100 + 100) / 5) = 100 := by
      norm_num
    rw [hround]

/-! ### Path helpers (node:path, POSIX)

`path.dirname`, `path.extname`, `path.basename`, `path.join`, `path.resolve`
modelled over character lists.  `path.resolve(dir, p)` consults the process
working directory when `dir` is relative; the analyzer only ever resolves
against directories of scanned file paths, so the model normalizes
`dir ++ "/" ++ p` (exact for absolute `dir`). -/

/-- Split at every slash (like `"a/b".split("/")`). -/
def splitSlash : List Char → List (List Char)
  | [] => [[]]
  | c :: cs =>
    if c = '/' then [] :: splitSlash cs
    else match splitSlash cs with
      | [] => [[c]]
      | seg :: rest => (c :: seg) :: rest

def pathSegments (p : String) : List (List Char) :=
  splitSlash p.toList

/-- Normalize segments: drop empty and "." segments, let ".." pop the
previous segment (or vanish above the root).  `acc` holds the kept segments
reversed. -/
def normalizeSegments : List (List Char) → List (List Char) → List (List Char)
  | [], acc => acc.reverse
  | s :: rest, acc =>
    if s = [] ∨ s = ['.'] then normalizeSegments rest acc
    else if s = ['.', '.'] then normalizeSegments rest (acc.drop 1)
    else normalizeSegments rest (s :: acc)

def interposeSlash : List (List Char) → List Char
  | [] => []
  | [s] => s
  | s :: rest => s ++ '/' :: interposeSlash rest

/-- Normalization of an absolute path. -/
def normalizeAbsolute (p : String) : String :=
  ⟨'/' :: interposeSlash (normalizeSegments (pathSegments p) [])⟩

/-- `path.resolve(dir, p)` for the analyzer's use (see section comment). -/
def pathResolve (dir p : String) : String :=
  if strStartsWith p "/" then normalizeAbsolute p
  else normalizeAbsolute (dir ++ "/" ++ p)

/-- `path.dirname(p)`. -/
def pathDirname (p : String) : String :=
  let segs := (pathSegments p).filter (fun s => !s.isEmpty)
  match segs.dropLast with
  | [] => if strStartsWith p "/" then "/" else "."
  | ds =>
    if strStartsWith p "/" then ⟨'/' :: interposeSlash ds⟩
    else ⟨interposeSlash ds⟩

/-- `path.basename(p)`, as characters. -/
def pathBasenameChars (p : String) : List Char :=
  (((pathSegments p).filter (fun s => !s.isEmpty)).getLast?).getD []

/-- `path.basename(p)`. -/
def pathBasename (p : String) : String :=
  ⟨pathBasenameChars p⟩

/-- The suffix starting at the last dot of the list, if any. -/
def lastDotSuffix : List Char → Option (List Char)
  | [] => none
  | c :: cs =>
    match lastDotSuffix cs with
    | some s => some s
    | none => if c = '.' then some (c :: cs) else none

/-- `path.extname(p)`: from the last dot of the basename, empty when the
only dot leads the basename. -/
def pathExtname (p : String) : String :=
  match pathBasenameChars p with
  | [] => ""
  | _ :: cs =>
    match lastDotSuffix cs with
    | some s => ⟨s⟩
    | none => ""

/-- `path.join(a, b)`. -/
def pathJoin (a b : String) : String :=
  if strStartsWith a "/" then normalizeAbsolute (a ++ "/" ++ b)
  else ⟨interposeSlash (normalizeSegments (pathSegments (a ++ "/" ++ b)) [])⟩

/-! ### `resolveImportPath` and import collection (dependency analyzer) -/

def importExtensions : List String := [".ts", ".tsx", ".js", ".jsx"]

/-- The candidate sequence the source's two loops walk: the literal resolved
path under each extension, then index-file variants under each extension. -/
def importCandidates (resolvedPath : String) : List String :=
  (importExtensions.map (fun ext => resolvedPath ++ ext)) ++
  (importExtensions.map (fun ext => pathJoin resolvedPath ("index" ++ ext)))

/-- `resolveImportPath(sourcePath, importPath)`.  Both source loops return
on their first iteration (no existence check is made), so the function
returns the first candidate; the trailing `some resolvedPath` arm is the
source's final `return resolvedPath`, reachable only were the extension
list empty. -/
def resolveImportPath (sourcePath importPath : String) : Option String :=
  let sourceDir := pathDirname sourcePath
  let resolvedPath := pathResolve sourceDir importPath
  if pathExtname resolvedPath == "" then
    match importCandidates resolvedPath with
    | c :: _ => some c
    | [] => some resolvedPath
  else some resolvedPath

/-- `importPath.startsWith('.') || importPath.startsWith('/')`. -/
def isLocalImport (s : String) : Bool :=
  strStartsWith s "." || strStartsWith s "/"

/-- The import-collection loop of `analyzeDependencies`: non-local imports
are skipped, the rest resolved and added to the (insertion-ordered) set. -/
def collectImportPaths (filePath : String) (sources : List String) :
    List String :=
  sources.foldl (fun importPaths importPath =>
    if !(isLocalImport importPath) then importPaths
    else
      match resolveImportPath filePath importPath with
      | some resolvedPath =>
        if resolvedPath ∈ importPaths then importPaths
        else importPaths ++ [resolvedPath]
      | none => importPaths) []

theorem collectImportPaths_aux (filePath : String) :
    ∀ (sources : List String) (acc : List String),
      sources.foldl (fun importPaths importPath =>
        if !(isLocalImport importPath) then importPaths
        else
          match resolveImportPath filePath importPath with
          | some resolvedPath =>
            if resolvedPath ∈ importPaths then importPaths
            else importPaths ++ [resolvedPath]
          | none => importPaths) acc =
      (sources.filter isLocalImport).foldl (fun importPaths importPath =>
        if !(isLocalImport importPath) then importPaths
        else
          match resolveImportPath filePath importPath with
          | some resolvedPath =>
            if resolvedPath ∈ importPaths then importPaths
            else importPaths ++ [resolvedPath]
          | none => importPaths) acc := by
  intro sources
  induction sources with
  | nil => intro acc; rfl
  | cons a t ih =>
    intro acc
    by_cases ha : isLocalImport a
    · simp only [List.foldl_cons, List.filter_cons, ha, if_pos]
      exact ih _
    · have ha2 : isLocalImport a = false := Bool.eq_false_iff.2 ha
      simp only [List.foldl_cons, List.filter_cons, ha2, Bool.not_false, if_pos,
        Bool.false_eq_true, if_neg, ite_false]
      rw [ih]

/-- C9: `resolveImportPath` resolves the specifier against the importing
file's directory and returns, when the resolved path has no extension, the
first candidate of the extension/index sequence (namely the literal path
with ".ts" appended) without consulting the filesystem; a resolved path
that already carries an extension is returned as-is; and the dependency
analyzer's collection loop ignores exactly the non-local specifiers. -/
theorem C9_resolve_import_path :
    (∀ sourcePath importPath : String,
      resolveImportPath sourcePath importPath =
        some (if pathExtname (pathResolve (pathDirname sourcePath) importPath)
            == "" then
          pathResolve (pathDirname sourcePath) importPath ++ ".ts"
        else pathResolve (pathDirname sourcePath) importPath)) ∧
    (∀ r : String, (importCandidates r).head? = some (r ++ ".ts")) ∧
    (∀ (filePath : String) (sources : List String),
      collectImportPaths filePath sources =
        collectImportPaths filePath (sources.filter isLocalImport)) ∧
    resolveImportPath "/proj/src/components/App.tsx" "./Button" =
      some "/proj/src/components/Button.ts" ∧
    resolveImportPath "/proj/src/components/App.tsx" "../lib/helpers.js" =
      some "/proj/src/lib/helpers.js" := by
  refine ⟨?_, fun r => rfl, ?_, by decide, by decide⟩
  · intro sourcePath importPath
    cases h : pathExtname (pathResolve (pathDirname sourcePath) importPath) == "" <;>
      simp [resolveImportPath, importCandidates, importExtensions, h]
  · intro filePath sources
    exact collectImportPaths_aux filePath sources []

/-! ### Component graph builder (`analyzeComponents`)

Input: per-file parse results (the extractors applied to each file's tree),
in file order.  Per-file parse failures make the source skip the file; the
embedding takes the already-parsed survivors as input.  The grid-layout
`position` assignment at the end of the source is a rendering convenience
outside the analytical contract and is not modelled. -/

structure ImportSpec where
  specType : String
  localName : String
deriving DecidableEq, Repr

structure ImportDecl where
  source : String
  specifiers : List ImportSpec
deriving DecidableEq, Repr

/-- An export specifier: `specifier.exported.name` when present. -/
structure ExportSpec where
  exportedName : Option String
deriving DecidableEq, Repr

structure ExportDecl where
  declType : String
  specifiers : List ExportSpec
deriving DecidableEq, Repr

/-- One analyzable file with its extraction results. -/
structure ParsedFile where
  file : SFile
  components : List CompRef
  typeDefinitions : List JNode
  imports : List ImportDecl
  exports : List ExportDecl

structure ComponentNodeData where
  id : String
  label : String
  filePath : String
  type : String
  props : Option (List String)
  imports : Nat
  exports : Nat
deriving DecidableEq, Repr

structure ComponentRelationship where
  id : String
  source : String
  target : String
deriving DecidableEq, Repr

structure ComponentGraph where
  components : List ComponentNodeData
  relationships : List ComponentRelationship
deriving DecidableEq, Repr

/-- `/^[A-Z]/.test(s)`. -/
def startsUpper (s : String) : Bool :=
  match s.toList with
  | c :: _ => decide ('A' ≤ c) && decide (c ≤ 'Z')
  | [] => false

/-- `Map.set`: overwrite an existing key in place, else append. -/
def mapSet {α : Type} (m : List (String × α)) (k : String) (v : α) :
    List (String × α) :=
  if m.any (fun e => e.1 == k) then
    m.map (fun e => if e.1 == k then (k, v) else e)
  else m ++ [(k, v)]

def componentScriptFile (f : SFile) : Bool :=
  f.extension == ".tsx" || f.extension == ".jsx" ||
  f.extension == ".js" || f.extension == ".ts"

/-- The component name pass 1 reads off the declaration node. -/
def extractedComponentName (c : JNode) : String :=
  if c.info.type == "FunctionDeclaration" || c.info.type == "ClassDeclaration" then
    c.info.idName.getD ""
  else if c.info.type == "VariableDeclarator" &&
      c.info.idType == some "Identifier" then
    c.info.idName.getD ""
  else ""

/-- Names of `Property`-with-`Identifier`-key members of an object
pattern. -/
def objectPatternPropNames (pat : JNode) : List String :=
  (childList pat .properties).filterMap (fun prop =>
    if prop.info.type == "Property" && prop.info.keyType == some "Identifier" then
      prop.info.keyName
    else none)

/-- `extractComponentProps(component)`: names bound by an object-pattern
first parameter. -/
def extractComponentProps (component : JNode) : List String :=
  if component.info.type == "FunctionDeclaration" then
    match (childList component .params).head? with
    | some firstParam =>
      if firstParam.info.type == "ObjectPattern" then
        objectPatternPropNames firstParam
      else []
    | none => []
  else if component.info.type == "VariableDeclarator" then
    match childNode component .init with
    | some init =>
      if init.info.type == "ArrowFunctionExpression" ||
          init.info.type == "FunctionExpression" then
        match (childList init .params).head? with
        | some firstParam =>
          if firstParam.info.type == "ObjectPattern" then
            objectPatternPropNames firstParam
          else []
        | none => []
      else []
    | none => []
  else []

/-- Pass 1 component-kind classification. -/
def componentTypeFor (f : SFile) (componentName : String) : String :=
  if f.isPage then "page"
  else if f.isLayout then "layout"
  else if strIncludes f.path "/hooks/" || strStartsWith componentName "use" then
    "hook"
  else if strIncludes f.path "/utils/" || strIncludes f.path "/lib/" ||
      strIncludes f.path "/helpers/" then "utils"
  else "component"

/-- The component nodes pass 1 creates for one file. -/
def componentNodesOfFile (f : ParsedFile) : List ComponentNodeData :=
  f.components.filterMap (fun cr =>
    let componentName := extractedComponentName cr.node
    if componentName == "" then none
    else
      let props := extractComponentProps cr.node
      some
        { id := f.file.path ++ ":" ++ componentName
        , label := componentName
        , filePath := f.file.path
        , type := componentTypeFor f.file componentName
        , props := if props.length > 0 then some props else none
        , imports := 0
        , exports := 0 })

/-- The capitalized locally-imported names of one file (`./`-imports only). -/
def importedComponentNames (f : ParsedFile) : List String :=
  f.imports.foldl (fun acc importDecl =>
    if !(strStartsWith importDecl.source ".") then acc
    else
      acc ++ importDecl.specifiers.filterMap (fun spec =>
        if (spec.specType == "ImportSpecifier" ||
            spec.specType == "ImportDefaultSpecifier") &&
            startsUpper spec.localName then
          some spec.localName
        else none)) []

/-- Pass 1: all component nodes plus the import map. -/
def analyzeComponentsPass1 (files : List ParsedFile) :
    List ComponentNodeData × List (String × List String) :=
  files.foldl (fun st f =>
    let importedComponents := importedComponentNames f
    (st.1 ++ componentNodesOfFile f,
     if importedComponents.length > 0 then
       mapSet st.2 f.file.path importedComponents
     else st.2))
    ([], [])

def bumpImports (c : ComponentNodeData) : ComponentNodeData :=
  { c with imports := c.imports + 1 }

def bumpExports (c : ComponentNodeData) : ComponentNodeData :=
  { c with exports := c.exports + 1 }

def updateAt {α : Type} : List α → Nat → (α → α) → List α
  | [], _, _ => []
  | x :: xs, 0, g => g x :: xs
  | x :: xs, n + 1, g => x :: updateAt xs n g

structure Pass2State where
  nodes : List ComponentNodeData
  relationships : List ComponentRelationship
deriving DecidableEq, Repr

/-- The body of pass 2's innermost loop: drop self-references, else push the
relationship and update the reference counts of the two nodes. -/
def relStep (s : Pass2State) (si ti : Nat) : Pass2State :=
  match s.nodes.get? si, s.nodes.get? ti with
  | some sourceComponent, some targetComponent =>
    if sourceComponent.id == targetComponent.id then s
    else
      { nodes := updateAt (updateAt s.nodes si bumpImports) ti bumpExports
      , relationships := s.relationships ++
          [⟨sourceComponent.id ++ "->" ++ targetComponent.id,
            sourceComponent.id, targetComponent.id⟩] }
  | _, _ => s

/-- The node positions whose component matches a predicate (standing for the
source's filtered object lists; positions are stable because pass 2 never
changes a node's `filePath`, `label` or `id`). -/
def nodeIdxWhere (nodes : List ComponentNodeData) (p : ComponentNodeData → Bool) :
    List Nat :=
  (List.range nodes.length).filter (fun i =>
    match nodes.get? i with
    | some n => p n
    | none => false)

/-- Pass 2: relationships from every component of an importing file to every
same-named component elsewhere. -/
def analyzeComponentsPass2 (importMap : List (String × List String))
    (nodes0 : List ComponentNodeData) : Pass2State :=
  importMap.foldl (fun s entry =>
    let sourceIdx := nodeIdxWhere s.nodes (fun n => n.filePath == entry.1)
    if sourceIdx.isEmpty then s
    else
      entry.2.foldl (fun s importedName =>
        let targetIdx := nodeIdxWhere s.nodes (fun n => n.label == importedName)
        sourceIdx.foldl (fun s si =>
          targetIdx.foldl (fun s ti => relStep s si ti) s) s) s)
    ⟨nodes0, []⟩

/-- `analyzeComponents(fileData)`. -/
def analyzeComponents (fileData : List ParsedFile) : ComponentGraph :=
  let tsxFiles := fileData.filter (fun f => componentScriptFile f.file)
  let p1 := analyzeComponentsPass1 tsxFiles
  let s := analyzeComponentsPass2 p1.2 p1.1
  ⟨s.nodes, s.relationships⟩

/-! ### Dependency graph builder (`analyzeDependencies`) -/

structure DependencyNode where
  id : String
  label : String
  filePath : String
  type : String
  imports : List String
  exports : List String
deriving DecidableEq, Repr

structure DependencyGraph where
  dependencies : List DependencyNode
  circularDependencies : List CircularDependency
deriving DecidableEq, Repr

def dependencyScriptFile (f : SFile) : Bool :=
  f.extension == ".ts" || f.extension == ".tsx" ||
  f.extension == ".js" || f.extension == ".jsx"

/-- The export names of one file: named-export specifiers' exported names,
plus "default" per default export. -/
def exportNamesOf (f : ParsedFile) : List String :=
  f.exports.foldl (fun acc exportDecl =>
    if exportDecl.declType == "ExportNamedDeclaration" then
      acc ++ exportDecl.specifiers.filterMap (fun s => s.exportedName)
    else if exportDecl.declType == "ExportDefaultDeclaration" then
      acc ++ ["default"]
    else acc) []

/-- `path.basename(p, path.extname(p))`. -/
def pathBasenameNoExt (p : String) : String :=
  let b := pathBasenameChars p
  let e := (pathExtname p).toList
  if e.isEmpty then ⟨b⟩ else ⟨b.take (b.length - e.length)⟩

/-- The dependency-node kind classification. -/
def dependencyTypeFor (f : SFile) : String :=
  if f.isPage then "page"
  else if f.isComponent then "component"
  else if strIncludes f.path "/api/" then "api"
  else if strIncludes f.path "/hooks/" ||
      strStartsWith (pathBasenameNoExt f.path) "use" then "hook"
  else if strIncludes f.path "/lib/" then "lib"
  else if strIncludes f.path "/config/" then "config"
  else "util"

/-- `analyzeDependencies(fileData)`: one dependency node per analyzable
file, then cycle detection over the accumulated maps. -/
def analyzeDependencies (fileData : List ParsedFile) : DependencyGraph :=
  let tsFiles := fileData.filter (fun f => dependencyScriptFile f.file)
  let st := tsFiles.foldl
    (fun (st : List DependencyNode × List (String × String) × DependencyMap) f =>
      let importPaths :=
        collectImportPaths f.file.path (f.imports.map (fun d => d.source))
      let fileName := pathBasename f.file.path
      let node : DependencyNode :=
        { id := f.file.path
        , label := fileName
        , filePath := f.file.path
        , type := dependencyTypeFor f.file
        , imports := importPaths
        , exports := exportNamesOf f }
      (st.1 ++ [node], mapSet st.2.1 f.file.path fileName,
       mapSet st.2.2 f.file.path importPaths))
    ([], [], [])
  ⟨st.1, detectCircularDependencies st.2.2 st.2.1⟩

/-! ### C6: no self-edges -/

theorem relStep_no_self (s : Pass2State) (si ti : Nat)
    (h : ∀ r ∈ s.relationships, r.source ≠ r.target) :
    ∀ r ∈ (relStep s si ti).relationships, r.source ≠ r.target := by
  intro r hr
  unfold relStep at hr
  rcases hs : s.nodes.get? si with _ | sc <;> rw [hs] at hr
  · exact h r hr
  · rcases ht : s.nodes.get? ti with _ | tc <;> rw [ht] at hr
    · exact h r hr
    · dsimp only at hr
      by_cases heq : (sc.id == tc.id) = true
      · rw [if_pos heq] at hr
        exact h r hr
      · rw [if_neg heq] at hr
        simp only [List.mem_append, List.mem_singleton] at hr
        rcases hr with hr | rfl
        · exact h r hr
        · intro hcontra
          exact heq (beq_iff_eq.2 hcontra)

theorem pass2_no_self (importMap : List (String × List String))
    (nodes0 : List ComponentNodeData) :
    ∀ r ∈ (analyzeComponentsPass2 importMap nodes0).relationships,
      r.source ≠ r.target := by
  unfold analyzeComponentsPass2
  refine foldl_inv
    (fun s : Pass2State => ∀ r ∈ s.relationships, r.source ≠ r.target)
    _ importMap ?_ ⟨nodes0, []⟩ (by intro r hr; cases hr)
  intro s entry _ hs
  dsimp only
  by_cases hempty :
      (nodeIdxWhere s.nodes (fun n => n.filePath == entry.1)).isEmpty = true
  · rw [if_pos hempty]; exact hs
  · rw [if_neg hempty]
    refine foldl_inv
      (fun s2 : Pass2State => ∀ r ∈ s2.relationships, r.source ≠ r.target)
      _ entry.2 ?_ s hs
    intro s2 nm _ hs2
    dsimp only
    refine foldl_inv
      (fun s3 : Pass2State => ∀ r ∈ s3.relationships, r.source ≠ r.target)
      _ _ ?_ s2 hs2
    intro s3 si _ hs3
    refine foldl_inv
      (fun s4 : Pass2State => ∀ r ∈ s4.relationships, r.source ≠ r.target)
      _ _ ?_ s3 hs3
    intro s4 ti _ hs4
    exact relStep_no_self s4 si ti hs4

/-- C6: in every component graph the builder produces, no relationship has
equal source and target component ids. -/
theorem C6_no_self_edges :
    ∀ (fileData : List ParsedFile) (rel : ComponentRelationship),
      rel ∈ (analyzeComponents fileData).relationships →
      rel.source ≠ rel.target := by
  intro fileData rel hrel
  unfold analyzeComponents at hrel
  exact pass2_no_self _ _ rel hrel

/-- A file defining the `Button` component. -/
def fileButton : ParsedFile :=
  { file := { path := "/proj/src/components/Button.tsx", extension := ".tsx" }
  , components :=
      [⟨.mk { type := "FunctionDeclaration", idName := some "Button" } [], []⟩]
  , typeDefinitions := []
  , imports := []
  , exports := [] }

/-- A page importing `Button` and defining the `App` component. -/
def fileApp : ParsedFile :=
  { file := { path := "/proj/src/pages/App.tsx", extension := ".tsx",
              isPage := true }
  , components :=
      [⟨.mk { type := "FunctionDeclaration", idName := some "App" } [], []⟩]
  , typeDefinitions := []
  , imports :=
      [{ source := "../components/Button"
       , specifiers := [{ specType := "ImportDefaultSpecifier", localName := "Button" }] }]
  , exports := [] }

/-- Witness for C6: the one edge of a concrete two-file graph has distinct
endpoints. -/
theorem C6_no_self_edges_witness :
    ("/proj/src/pages/App.tsx:App" : String) ≠
      "/proj/src/components/Button.tsx:Button" :=
  C6_no_self_edges [fileButton, fileApp]
    ⟨"/proj/src/pages/App.tsx:App->/proj/src/components/Button.tsx:Button",
     "/proj/src/pages/App.tsx:App", "/proj/src/components/Button.tsx:Button"⟩
    (by decide)

/-! ### C4: determinism and content-derived identifiers -/

/-- The content-derived shape of a component node id. -/
def CompShape (c : ComponentNodeData) : Prop :=
  c.id = c.filePath ++ ":" ++ c.label

theorem updateAt_inv {α : Type} (P : α → Prop) (g : α → α)
    (hg : ∀ x, P x → P (g x)) :
    ∀ (l : List α) (i : Nat), (∀ x ∈ l, P x) → ∀ x ∈ updateAt l i g, P x := by
  intro l
  induction l with
  | nil => intro i h x hx; cases hx
  | cons a t ih =>
    intro i h x hx
    cases i with
    | zero =>
      rcases List.mem_cons.1 hx with rfl | hx
      · exact hg a (h a (List.mem_cons_self _ _))
      · exact h x (List.mem_cons_of_mem _ hx)
    | succ n =>
      rcases List.mem_cons.1 hx with rfl | hx
      · exact h x (List.mem_cons_self _ _)
      · exact ih n (fun y hy => h y (List.mem_cons_of_mem _ hy)) x hx

theorem bumpImports_shape (c : ComponentNodeData) (h : CompShape c) :
    CompShape (bumpImports c) := h

theorem bumpExports_shape (c : ComponentNodeData) (h : CompShape c) :
    CompShape (bumpExports c) := h

theorem relStep_shape (s : Pass2State) (si ti : Nat)
    (h : ∀ c ∈ s.nodes, CompShape c) :
    ∀ c ∈ (relStep s si ti).nodes, CompShape c := by
  intro c hc
  unfold relStep at hc
  rcases hs : s.nodes.get? si with _ | sc <;> rw [hs] at hc
  · exact h c hc
  · rcases ht : s.nodes.get? ti with _ | tc <;> rw [ht] at hc
    · exact h c hc
    · dsimp only at hc
      by_cases heq : (sc.id == tc.id) = true
      · rw [if_pos heq] at hc
        exact h c hc
      · rw [if_neg heq] at hc
        exact updateAt_inv CompShape bumpExports bumpExports_shape _ ti
          (updateAt_inv CompShape bumpImports bumpImports_shape _ si h) c hc

theorem pass2_shape (importMap : List (String × List String))
    (nodes0 : List ComponentNodeData) (h0 : ∀ c ∈ nodes0, CompShape c) :
    ∀ c ∈ (analyzeComponentsPass2 importMap nodes0).nodes, CompShape c := by
  unfold analyzeComponentsPass2
  refine foldl_inv (fun s : Pass2State => ∀ c ∈ s.nodes, CompShape c)
    _ importMap ?_ ⟨nodes0, []⟩ h0
  intro s entry _ hs
  dsimp only
  by_cases hempty :
      (nodeIdxWhere s.nodes (fun n => n.filePath == entry.1)).isEmpty = true
  · rw [if_pos hempty]; exact hs
  · rw [if_neg hempty]
    refine foldl_inv (fun s2 : Pass2State => ∀ c ∈ s2.nodes, CompShape c)
      _ entry.2 ?_ s hs
    intro s2 nm _ hs2
    dsimp only
    refine foldl_inv (fun s3 : Pass2State => ∀ c ∈ s3.nodes, CompShape c)
      _ _ ?_ s2 hs2
    intro s3 si _ hs3
    refine foldl_inv (fun s4 : Pass2State => ∀ c ∈ s4.nodes, CompShape c)
      _ _ ?_ s3 hs3
    intro s4 ti _ hs4
    exact relStep_shape s4 si ti hs4

theorem pass1_shape (files : List ParsedFile) :
    ∀ c ∈ (analyzeComponentsPass1 files).1, CompShape c := by
  unfold analyzeComponentsPass1
  refine foldl_inv
    (fun st : List ComponentNodeData × List (String × List String) =>
      ∀ c ∈ st.1, CompShape c)
    _ files ?_ ([], []) (by intro c hc; cases hc)
  intro st f _ hst
  dsimp only
  intro c hc
  rcases List.mem_append.1 hc with h | h
  · exact hst c h
  · rcases List.mem_filterMap.1 h with ⟨cr, _, hcr⟩
    by_cases hname : (extractedComponentName cr.node == "") = true
    · simp only [componentNodesOfFile, hname, if_pos] at hcr
      cases hcr
    · simp only [componentNodesOfFile, hname, if_neg, Bool.false_eq_true,
        ite_false, Option.some.injEq] at hcr
      subst hcr
      rfl

/-- C4: the pipeline is a pure function of its parsed input — running the
component builder, the dependency builder (cycle records included) and the
score calculator twice on unchanged input gives identical results — and the
entity ids are content-derived: every component node id is
`filePath ++ ":" ++ label` and every dependency node id is the file path
(its label the file's basename). -/
theorem C4_pipeline_deterministic :
    (∀ fileData : List ParsedFile,
      analyzeComponents fileData = analyzeComponents fileData ∧
      analyzeDependencies fileData = analyzeDependencies fileData) ∧
    (∀ (issues : List SolidIssue) (n : Nat),
      calculateScores issues n = calculateScores issues n) ∧
    (∀ fileData : List ParsedFile,
      ∀ c ∈ (analyzeComponents fileData).components,
        c.id = c.filePath ++ ":" ++ c.label) ∧
    (∀ fileData : List ParsedFile,
      ∀ d ∈ (analyzeDependencies fileData).dependencies,
        d.id = d.filePath ∧ d.label = pathBasename d.filePath) := by
  refine ⟨fun _ => ⟨rfl, rfl⟩, fun _ _ => rfl, ?_, ?_⟩
  · intro fileData c hc
    have h1 := pass1_shape (fileData.filter (fun f => componentScriptFile f.file))
    exact pass2_shape _ _ h1 c hc
  · intro fileData d hd
    unfold analyzeDependencies at hd
    refine foldl_inv
      (fun st : List DependencyNode × List (String × String) × DependencyMap =>
        ∀ d ∈ st.1, d.id = d.filePath ∧ d.label = pathBasename d.filePath)
      _ _ ?_ ([], [], []) (by intro d hd2; cases hd2) d hd
    intro st f _ hst
    dsimp only
    intro d hd2
    rcases List.mem_append.1 hd2 with h | h
    · exact hst d h
    · rcases List.mem_singleton.1 h with rfl
      exact ⟨rfl, rfl⟩

/-! ### Source scanner (`fileSystem.buildDirectoryTree`)

The filesystem is modelled as input data: a list of raw entries per
directory, in `readdir` order.  The scanner's per-entry metadata functions
are pure functions of names/paths and are embedded; reading sizes is
modelled by a size carried on each raw file entry.  `localeCompare` is
modelled as code-point comparison and `Array.prototype.sort` as a stable
sort (insertion sort). -/

inductive FS where
  | file (name : String) (size : Nat)
  | dir (name : String) (entries : List FS)

inductive TreeNode where
  | file (name path extension : String) (size : Nat)
      (isPage isComponent isLayout : Bool)
  | dir (name path : String) (children : List TreeNode)
      (isPages isApp isComponents : Bool) (fileCount : Nat)

def nodeIsDir : TreeNode → Bool
  | .dir .. => true
  | .file .. => false

def nodeName : TreeNode → String
  | .file name .. => name
  | .dir name .. => name

def INCLUDE_EXTENSIONS : List String := [".ts", ".tsx", ".js", ".jsx", ".json", ".md"]

def EXCLUDE_DIRS : List String := ["node_modules", ".git", "dist", "build", ".next", "out"]

/-- `isNextPage(filePath)`. -/
def isNextPage (filePath : String) : Bool :=
  let ext := pathExtname filePath
  if !(ext == ".tsx" || ext == ".jsx" || ext == ".js" || ext == ".ts") then false
  else
    strIncludes filePath "/pages/" ||
      (strIncludes filePath "/app/" && !strIncludes filePath "/components/")

/-- `isReactComponent(filePath)`. -/
def isReactComponent (filePath : String) : Bool :=
  let ext := pathExtname filePath
  if !(ext == ".tsx" || ext == ".jsx") then false
  else
    let fileName := pathBasenameNoExt filePath
    startsUpper fileName || fileName == "index"

/-- `createFileNode(filePath)` (size from the raw entry). -/
def createFileNode (filePath : String) (size : Nat) : TreeNode :=
  let ext := pathExtname filePath
  let fileName := pathBasename filePath
  .file fileName filePath ext size (isNextPage filePath)
    (isReactComponent filePath)
    (fileName == "layout.tsx" || fileName == "layout.jsx")

/-- Code-point lexicographic comparison (the model of `localeCompare`). -/
def charListLe : List Char → List Char → Bool
  | [], _ => true
  | _ :: _, [] => false
  | a :: as, b :: bs =>
    if a.toNat < b.toNat then true
    else if b.toNat < a.toNat then false
    else charListLe as bs

/-- The children comparator: directories before files, then by name. -/
def childLE (a b : TreeNode) : Bool :=
  if nodeIsDir a && !(nodeIsDir b) then true
  else if !(nodeIsDir a) && nodeIsDir b then false
  else charListLe (nodeName a).toList (nodeName b).toList

/-- `node.children.sort(comparator)`, as a stable sort. -/
def sortChildren (children : List TreeNode) : List TreeNode :=
  children.insertionSort (fun a b => childLE a b = true)

mutual

/-- `countFiles(node)`: transitive file count below a children list. -/
def countFiles : List TreeNode → Nat
  | [] => 0
  | t :: rest => countFilesChild t + countFiles rest

def countFilesChild : TreeNode → Nat
  | .file .. => 1
  | .dir _ _ cs _ _ _ _ => countFiles cs

end

/-- The directory node `buildDirectoryTree` creates: role flags from the
directory name, transitive file count over the (already sorted) children. -/
def mkDirNode (name path : String) (children : List TreeNode) : TreeNode :=
  .dir name path children (name == "pages") (name == "app")
    (name == "components") (countFiles children)

mutual

/-- The children `buildDirectoryTree` collects for one directory, before
sorting. -/
def buildChildren (dirPath : String) : List FS → List TreeNode
  | [] => []
  | e :: rest => buildEntry dirPath e ++ buildChildren dirPath rest

/-- What one `readdir` entry contributes: excluded directories are skipped,
files filtered by extension, sub-directories recursively built (their own
children sorted). -/
def buildEntry (dirPath : String) : FS → List TreeNode
  | .file name size =>
    if INCLUDE_EXTENSIONS.contains (pathExtname name) then
      [createFileNode (pathJoin dirPath name) size]
    else []
  | .dir name entries =>
    if EXCLUDE_DIRS.contains name then []
    else
      [mkDirNode name (pathJoin dirPath name)
        (sortChildren (buildChildren (pathJoin dirPath name) entries))]

end

/-- `buildDirectoryTree` applied to one directory node. -/
def buildDir (name path : String) (entries : List FS) : TreeNode :=
  mkDirNode name path (sortChildren (buildChildren path entries))

/-- `scanProjectDirectory(projectRoot)` over the modelled filesystem. -/
def scanProjectDirectory (projectRoot : String) (entries : List FS) : TreeNode :=
  buildDir (pathBasename projectRoot) projectRoot entries

/-! ### C5: children ordering invariant -/

/-- The claim's ordering: directories before files, and names in
non-decreasing order within each of the two groups. -/
def ChildrenOrdered (l : List TreeNode) : Prop :=
  List.Pairwise (fun a b =>
    (nodeIsDir b = true → nodeIsDir a = true) ∧
    (nodeIsDir a = nodeIsDir b →
      charListLe (nodeName a).toList (nodeName b).toList = true)) l

/-- Every directory node of the tree has ordered children. -/
inductive SortedTree : TreeNode → Prop where
  | file : ∀ name path ext size p c l,
      SortedTree (.file name path ext size p c l)
  | dir : ∀ name path cs m1 m2 m3 fc,
      ChildrenOrdered cs → (∀ c ∈ cs, SortedTree c) →
      SortedTree (.dir name path cs m1 m2 m3 fc)

theorem charListLe_total : ∀ xs ys : List Char,
    charListLe xs ys = true ∨ charListLe ys xs = true := by
  intro xs
  induction xs with
  | nil => intro ys; exact Or.inl rfl
  | cons a as ih =>
    intro ys
    cases ys with
    | nil => exact Or.inr rfl
    | cons b bs =>
      simp only [charListLe]
      by_cases h1 : a.toNat < b.toNat
      · exact Or.inl (by simp [h1])
      · by_cases h2 : b.toNat < a.toNat
        · exact Or.inr (by simp [h2, h1])
        · rcases ih bs with h | h
          · exact Or.inl (by simp [h1, h2, h])
          · exact Or.inr (by simp [h1, h2, h])

theorem charListLe_trans : ∀ xs ys zs : List Char,
    charListLe xs ys = true → charListLe ys zs = true →
    charListLe xs zs = true := by
  intro xs
  induction xs with
  | nil => intro ys zs _ _; rfl
  | cons a as ih =>
    intro ys zs hxy hyz
    cases ys with
    | nil => exact absurd hxy (by simp [charListLe])
    | cons b bs =>
      cases zs with
      | nil => exact absurd hyz (by simp [charListLe])
      | cons c cs =>
        simp only [charListLe] at hxy hyz ⊢
        by_cases h1 : a.toNat < b.toNat <;> by_cases h2 : b.toNat < c.toNat
        · simp [Nat.lt_trans h1 h2]
        · rw [if_neg h2] at hyz
          by_cases h3 : c.toNat < b.toNat
          · rw [if_pos h3] at hyz; exact Bool.noConfusion hyz
          · have hac : a.toNat < c.toNat := by omega
            simp [hac]
        · rw [if_neg h1] at hxy
          by_cases h3 : b.toNat < a.toNat
          · rw [if_pos h3] at hxy; exact Bool.noConfusion hxy
          · have hac : a.toNat < c.toNat := by omega
            simp [hac]
        · rw [if_neg h1] at hxy
          rw [if_neg h2] at hyz
          by_cases h3 : b.toNat < a.toNat
          · rw [if_pos h3] at hxy; exact Bool.noConfusion hxy
          · by_cases h4 : c.toNat < b.toNat
            · rw [if_pos h4] at hyz; exact Bool.noConfusion hyz
            · rw [if_neg h3] at hxy
              rw [if_neg h4] at hyz
              have hac : ¬ a.toNat < c.toNat := by omega
              have hca : ¬ c.toNat < a.toNat := by omega
              rw [if_neg hac, if_neg hca]
              exact ih bs cs hxy hyz

theorem childLE_total : ∀ a b : TreeNode, childLE a b = true ∨ childLE b a = true := by
  intro a b
  unfold childLE
  cases ha : nodeIsDir a <;> cases hb : nodeIsDir b <;> simp
  · exact charListLe_total _ _
  · exact charListLe_total _ _

theorem childLE_trans : ∀ a b c : TreeNode, childLE a b = true →
    childLE b c = true → childLE a c = true := by
  intro a b c h1 h2
  unfold childLE at h1 h2 ⊢
  cases ha : nodeIsDir a <;> cases hb : nodeIsDir b <;> cases hc : nodeIsDir c <;>
    simp [ha, hb, hc] at h1 h2 ⊢ <;>
    exact charListLe_trans _ _ _ h1 h2

def childOrder : TreeNode → TreeNode → Prop :=
  fun a b => childLE a b = true

instance : DecidableRel childOrder := fun _ _ => decEq _ _

instance : IsTotal TreeNode childOrder := ⟨childLE_total⟩

instance : IsTrans TreeNode childOrder := ⟨fun a b c => childLE_trans a b c⟩

theorem sortChildren_ordered (l : List TreeNode) :
    ChildrenOrdered (sortChildren l) := by
  have hs : List.Sorted childOrder (List.insertionSort childOrder l) :=
    List.sorted_insertionSort childOrder l
  have hsc : sortChildren l = List.insertionSort childOrder l := rfl
  rw [hsc]
  refine List.Pairwise.imp ?_ hs
  intro a b hab
  unfold childOrder childLE at hab
  cases ha : nodeIsDir a <;> cases hb : nodeIsDir b <;> rw [ha, hb] at hab
  · exact ⟨fun h => h, fun _ => hab⟩
  · exact Bool.noConfusion hab
  · exact ⟨fun _ => rfl, fun h => Bool.noConfusion h⟩
  · exact ⟨fun h => h, fun _ => hab⟩

theorem sortChildren_mem {l : List TreeNode} {x : TreeNode} :
    x ∈ sortChildren l ↔ x ∈ l :=
  List.mem_insertionSort _

theorem buildChildren_sorted (n : Nat) : ∀ fsl : List FS, sizeOf fsl ≤ n →
    ∀ path : String, ∀ t ∈ buildChildren path fsl, SortedTree t := by
  induction n using Nat.strong_induction_on with
  | _ n ih =>
    intro fsl hsize path t ht
    cases fsl with
    | nil => cases ht
    | cons e rest =>
      rw [buildChildren] at ht
      rcases List.mem_append.1 ht with h | h
      · cases e with
        | file nm sz =>
          rw [buildEntry] at h
          by_cases hext : INCLUDE_EXTENSIONS.contains (pathExtname nm) = true
          · rw [if_pos hext] at h
            rcases List.mem_singleton.1 h with rfl
            exact SortedTree.file _ _ _ _ _ _ _
          · rw [if_neg hext] at h
            cases h
        | dir nm entries =>
          rw [buildEntry] at h
          by_cases hexc : EXCLUDE_DIRS.contains nm = true
          · rw [if_pos hexc] at h
            cases h
          · rw [if_neg hexc] at h
            rcases List.mem_singleton.1 h with rfl
            rw [mkDirNode]
            refine SortedTree.dir _ _ _ _ _ _ _ (sortChildren_ordered _) ?_
            intro c hc
            have hc2 := sortChildren_mem.1 hc
            have hlt : sizeOf entries < n := by
              have h5 := hsize
              simp only [List.cons.sizeOf_spec, FS.dir.sizeOf_spec] at h5
              omega
            exact ih (sizeOf entries) hlt entries (Nat.le_refl _) _ c hc2
      · have hlt : sizeOf rest < n := by
          have h5 := hsize
          simp only [List.cons.sizeOf_spec] at h5
          omega
        exact ih (sizeOf rest) hlt rest (Nat.le_refl _) path t h

theorem buildDir_sorted (name path : String) (entries : List FS) :
    SortedTree (buildDir name path entries) := by
  rw [buildDir, mkDirNode]
  refine SortedTree.dir _ _ _ _ _ _ _ (sortChildren_ordered _) ?_
  intro c hc
  exact buildChildren_sorted (sizeOf entries) entries (Nat.le_refl _) path c
    (sortChildren_mem.1 hc)

def rootChildNames (t : TreeNode) : List String :=
  match t with
  | .dir _ _ cs _ _ _ _ => cs.map nodeName
  | .file .. => []

/-- A sample raw directory listing, in readdir order. -/
def sampleFS : List FS :=
  [.file "readme.md" 10, .dir "src" [.file "index.ts" 5],
   .dir "components" [], .file "app.tsx" 7, .dir "node_modules" []]

/-- C5: every directory node of every tree the scanner produces has its
children sorted directories-before-files and lexicographically by name
within each group; on a sample listing the root children come out as the
two directories in name order followed by the two files in name order
(the excluded directory dropped). -/
theorem C5_children_sorted :
    (∀ (projectRoot : String) (entries : List FS),
      SortedTree (scanProjectDirectory projectRoot entries)) ∧
    rootChildNames (scanProjectDirectory "/proj" sampleFS) =
      ["components", "src", "app.tsx", "readme.md"] := by
  constructor
  · intro projectRoot entries
    exact buildDir_sorted _ _ _
  · decide

end Refactor
